import Mathlib

/-!
Shallow embedding of the learning-management analytics core
(`src/models/quiz.py` and `src/models/syllabus.py`).

Python floats are modelled by `ℚ`; Python lists by `List`; `Optional[x]`
by `Option`; Python's substring test `a in b` (after `.lower()`) by
`strIn`, a direct executable substring search over the character list.
All operations in the source are pure reads, so methods become functions
of the record they belong to.
-/

/-- Python's `sub in hay` on strings, specialised to lists of characters:
`startsWithChars hay sub` is true when `sub` is an initial segment of `hay`. -/
def startsWithChars : List Char → List Char → Bool
  | _, [] => true
  | [], _ :: _ => false
  | a :: as, b :: bs => a == b && startsWithChars as bs

/-- `occursInChars sub hay` is true when `sub` occurs contiguously inside `hay`. -/
def occursInChars (sub : List Char) : List Char → Bool
  | [] => startsWithChars [] sub
  | c :: t => startsWithChars (c :: t) sub || occursInChars sub t

/-- Python's `sub in hay` for strings. -/
def strIn (sub hay : String) : Bool :=
  occursInChars sub.toList hay.toList

/-- Python's `str.lower()`: per-character lowercasing.  (Extensionally equal to
`String.toLower`, but structurally recursive so that the kernel can evaluate it.) -/
def lowerStr (s : String) : String :=
  String.mk (s.toList.map Char.toLower)

/-- Specification-level notion of substring: `sub` occurs contiguously in `hay`. -/
def SubstrOf (sub hay : String) : Prop :=
  ∃ pre post : List Char, hay.toList = pre ++ sub.toList ++ post

/-- `Question` record from `src/models/quiz.py`. -/
structure Question where
  question_id : Int
  question_text : String
  correct_answer : String
  points : ℚ
  mapped_topic : Option String
  secondary_topics : List String
deriving DecidableEq

/-- `StudentResponse` record from `src/models/quiz.py`. -/
structure StudentResponse where
  question_id : Int
  response_text : String
  points_earned : ℚ
  is_correct : Bool
deriving DecidableEq

/-- `StudentResponse.get_score_percentage`. -/
def StudentResponse.get_score_percentage (r : StudentResponse) (question : Question) : ℚ :=
  if question.points = 0 then 0
  else r.points_earned / question.points * 100

/-- `Student` record from `src/models/quiz.py` (`section` is a Lean keyword,
hence the guillemets). -/
structure Student where
  student_id : String
  name : String
  «section» : String
  responses : List StudentResponse
deriving DecidableEq

/-- `Student.get_total_score` (the `questions` argument is unused in the source). -/
def Student.get_total_score (s : Student) (questions : List Question) : ℚ :=
  (s.responses.map fun r => r.points_earned).sum

/-- `Student.get_total_possible`. -/
def Student.get_total_possible (s : Student) (questions : List Question) : ℚ :=
  (questions.map fun q => q.points).sum

/-- `Student.get_percentage`. -/
def Student.get_percentage (s : Student) (questions : List Question) : ℚ :=
  let total := s.get_total_possible questions
  if total = 0 then 0
  else s.get_total_score questions / total * 100

/-- Body of the loop in `Student.get_weak_topics`: one topic (or nothing) per
response, in response order.  `next((q for q in questions if ...), None)` is
`List.find?`; Python's truthiness test `question.mapped_topic` is false both
for `None` and for the empty string. -/
def weakTopicOfResponse (questions : List Question) (threshold : ℚ)
    (response : StudentResponse) : Option String :=
  match questions.find? fun q => q.question_id == response.question_id with
  | none => none
  | some question =>
    match question.mapped_topic with
    | none => none
    | some topic =>
      if topic = "" then none
      else if response.get_score_percentage question < threshold then some topic
      else none

/-- `Student.get_weak_topics`.  The source returns `list(set(weak_topics))`:
set semantics, order unspecified; we realise the set as the duplicate-free
list `List.dedup` of the accumulated topics. -/
def Student.get_weak_topics (s : Student) (questions : List Question)
    (threshold : ℚ) : List String :=
  (s.responses.filterMap (weakTopicOfResponse questions threshold)).dedup

/-- `Quiz` aggregate from `src/models/quiz.py`; the `date` field (a Python
datetime defaulted to the construction time) is irrelevant to every
computation and is modelled as an uninterpreted natural tag. -/
structure Quiz where
  name : String
  course_name : String
  date : Nat
  questions : List Question
  students : List Student
deriving DecidableEq

/-- `Quiz.add_question`: append-only, no validation. -/
def Quiz.add_question (quiz : Quiz) (question : Question) : Quiz :=
  { quiz with questions := quiz.questions ++ [question] }

/-- `Quiz.add_student`: append-only, no validation. -/
def Quiz.add_student (quiz : Quiz) (student : Student) : Quiz :=
  { quiz with students := quiz.students ++ [student] }

/-- `Quiz.get_question_by_id`. -/
def Quiz.get_question_by_id (quiz : Quiz) (question_id : Int) : Option Question :=
  quiz.questions.find? fun q => q.question_id == question_id

/-- `Quiz.get_student_by_id`. -/
def Quiz.get_student_by_id (quiz : Quiz) (student_id : String) : Option Student :=
  quiz.students.find? fun s => s.student_id == student_id

/-- `Quiz.get_class_average`. -/
def Quiz.get_class_average (quiz : Quiz) : ℚ :=
  if quiz.students = [] then 0
  else (quiz.students.map fun s => s.get_percentage quiz.questions).sum /
    (quiz.students.length : ℚ)

/-- `Quiz.get_students_by_section`. -/
def Quiz.get_students_by_section (quiz : Quiz) (sec : String) : List Student :=
  quiz.students.filter fun s => s.«section» == sec

/-- `Quiz.get_section_average`. -/
def Quiz.get_section_average (quiz : Quiz) (sec : String) : ℚ :=
  let section_students := quiz.get_students_by_section sec
  if section_students = [] then 0
  else (section_students.map fun s => s.get_percentage quiz.questions).sum /
    (section_students.length : ℚ)

/-- `Quiz.get_all_sections`: `list(set(...))`, realised as `List.dedup`. -/
def Quiz.get_all_sections (quiz : Quiz) : List String :=
  (quiz.students.map fun s => s.«section»).dedup

/-- `Topic` record from `src/models/syllabus.py`. -/
structure Topic where
  name : String
  description : Option String
  week : Option Int
  subtopics : List String
deriving DecidableEq

/-- `Topic.contains_keyword`: lowercase the keyword, then test the name, the
description when present, then each subtopic, short-circuiting in that order. -/
def Topic.contains_keyword (t : Topic) (keyword : String) : Bool :=
  let keyword_lower := lowerStr keyword
  if strIn keyword_lower (lowerStr t.name) then true
  else if (match t.description with
           | some d => strIn keyword_lower (lowerStr d)
           | none => false) then true
  else t.subtopics.any fun sub => strIn keyword_lower (lowerStr sub)

/-- `Syllabus` aggregate from `src/models/syllabus.py`. -/
structure Syllabus where
  course_name : String
  course_code : String
  topics : List Topic
  raw_text : String
deriving DecidableEq

/-- `Syllabus.add_topic`: append-only, no uniqueness check. -/
def Syllabus.add_topic (syl : Syllabus) (topic : Topic) : Syllabus :=
  { syl with topics := syl.topics ++ [topic] }

/-- `Syllabus.get_topic_by_name`: first topic matching case-insensitively. -/
def Syllabus.get_topic_by_name (syl : Syllabus) (name : String) : Option Topic :=
  syl.topics.find? fun t => lowerStr t.name == lowerStr name

/-- `Syllabus.search_topics`. -/
def Syllabus.search_topics (syl : Syllabus) (keyword : String) : List Topic :=
  syl.topics.filter fun t => t.contains_keyword keyword

/-- `Syllabus.get_all_topic_names`. -/
def Syllabus.get_all_topic_names (syl : Syllabus) : List String :=
  syl.topics.map fun t => t.name

/-! ### Generic lemmas about the string and list primitives -/

theorem startsWithChars_iff (hay sub : List Char) :
    startsWithChars hay sub = true ↔ ∃ rest, hay = sub ++ rest := by
  induction sub generalizing hay with
  | nil => simp [startsWithChars]
  | cons b bs ih =>
    cases hay with
    | nil => simp [startsWithChars]
    | cons a as =>
      simp only [startsWithChars, Bool.and_eq_true, beq_iff_eq, ih, List.cons_append,
        List.cons.injEq]
      constructor
      · rintro ⟨rfl, rest, rfl⟩; exact ⟨rest, rfl, rfl⟩
      · rintro ⟨rest, rfl, rfl⟩; exact ⟨rfl, rest, rfl⟩

theorem occursInChars_iff (sub hay : List Char) :
    occursInChars sub hay = true ↔ ∃ pre post, hay = pre ++ sub ++ post := by
  induction hay with
  | nil =>
    simp only [occursInChars, startsWithChars_iff]
    constructor
    · rintro ⟨rest, h⟩
      exact ⟨[], rest, by simpa using h⟩
    · rintro ⟨pre, post, h⟩
      refine ⟨post, ?_⟩
      rcases List.append_eq_nil.mp h.symm with ⟨h1, h2⟩
      rcases List.append_eq_nil.mp h1 with ⟨rfl, rfl⟩
      simp [h2]
  | cons c t ih =>
    simp only [occursInChars, Bool.or_eq_true, startsWithChars_iff, ih]
    constructor
    · rintro (⟨rest, h⟩ | ⟨pre, post, h⟩)
      · exact ⟨[], rest, by simpa using h⟩
      · exact ⟨c :: pre, post, by simp [h]⟩
    · rintro ⟨pre, post, h⟩
      cases pre with
      | nil => exact Or.inl ⟨post, by simpa using h⟩
      | cons p ps =>
        simp only [List.cons_append, List.cons.injEq] at h
        exact Or.inr ⟨ps, post, h.2⟩

theorem strIn_iff (sub hay : String) : strIn sub hay = true ↔ SubstrOf sub hay :=
  occursInChars_iff sub.toList hay.toList

/-- First-match characterization of `List.find?`, the embedding of Python's
`next((x for x in l if p(x)), None)`. -/
theorem find?_eq_some_first {α : Type} (p : α → Bool) (l : List α) (a : α) :
    l.find? p = some a ↔
      ∃ pre post, l = pre ++ a :: post ∧ p a = true ∧ ∀ x ∈ pre, p x = false := by
  induction l with
  | nil => simp
  | cons b bs ih =>
    by_cases hb : p b = true
    · simp only [List.find?_cons_of_pos _ hb, Option.some.injEq]
      constructor
      · rintro rfl; exact ⟨[], bs, rfl, hb, by simp⟩
      · rintro ⟨pre, post, hl, hpa, hpre⟩
        cases pre with
        | nil => exact ((by simpa using hl : b = a ∧ bs = post)).1
        | cons c cs =>
          simp only [List.cons_append, List.cons.injEq] at hl
          have := hpre c (by simp)
          rw [hl.1] at hb
          simp [hb] at this
    · simp only [List.find?_cons_of_neg _ hb, ih]
      constructor
      · rintro ⟨pre, post, rfl, hpa, hpre⟩
        refine ⟨b :: pre, post, rfl, hpa, ?_⟩
        intro x hx
        rcases List.mem_cons.mp hx with rfl | hx
        · simpa using hb
        · exact hpre x hx
      · rintro ⟨pre, post, hl, hpa, hpre⟩
        cases pre with
        | nil =>
          simp only [List.nil_append, List.cons.injEq] at hl
          rw [hl.1] at hb; exact absurd hpa hb
        | cons c cs =>
          simp only [List.cons_append, List.cons.injEq] at hl
          exact ⟨cs, post, hl.2, hpa, fun x hx => hpre x (by simp [hx])⟩

/-! ### Concrete sample data (used by witnesses and counterexamples) -/

/-- Question 1 of the worked example: 10 points, mapped to "Recursion". -/
def qRec : Question := ⟨1, "What is recursion?", "a", 10, some "Recursion", []⟩

/-- Question 2 of the worked example: 10 points, mapped to "Arrays". -/
def qArr : Question := ⟨2, "What is an array?", "b", 10, some "Arrays", []⟩

/-- A zero-point question. -/
def qZero : Question := ⟨3, "bonus", "c", 0, none, []⟩

/-- A plain 10-point question. -/
def qTen : Question := ⟨4, "q4", "d", 10, some "Recursion", []⟩

/-- Response earning 4/10 on question 1. -/
def rLow : StudentResponse := ⟨1, "so-so answer", 4, false⟩

/-- Response earning 9/10 on question 2. -/
def rHigh : StudentResponse := ⟨2, "good answer", 9, true⟩

/-- Response earning more points than the question is worth. -/
def rOver : StudentResponse := ⟨4, "overachieving answer", 15, true⟩

/-- The example student "S1" with responses 4/10 and 9/10. -/
def stS1 : Student := ⟨"S1", "Student One", "Section A", [rLow, rHigh]⟩

/-- A student in section "A" scoring 100%. -/
def sA : Student := ⟨"A1", "Student A", "A", [⟨1, "full marks", 10, true⟩]⟩

/-- A student in section "B" scoring 50%. -/
def sB : Student := ⟨"B1", "Student B", "B", [⟨1, "half marks", 5, false⟩]⟩

/-- The two-student quiz of the worked example. -/
def quizAB : Quiz := ⟨"Quiz 1", "CS101", 0, [qRec], [sA, sB]⟩

/-- A quiz with no questions and no students. -/
def quizEmpty : Quiz := ⟨"Quiz 0", "CS101", 0, [], []⟩

/-- A question whose `mapped_topic` is the empty string (present but falsy in Python). -/
def qET : Question := ⟨7, "edge", "e", 10, some "", []⟩

/-- A failing response to `qET`. -/
def rET : StudentResponse := ⟨7, "wrong", 0, false⟩

/-- A student whose only response hits the empty-string-topic question. -/
def stET : Student := ⟨"E1", "Edge", "A", [rET]⟩

/-- A topic matched by "loop" only through its subtopics. -/
def tLoop : Topic := ⟨"Control Flow", some "branching and decisions", none, ["For Loops"]⟩

/-- A topic named "Functions" with no description. -/
def tFun : Topic := ⟨"Functions", none, some 3, []⟩

/-- A small syllabus holding `tLoop` then `tFun`. -/
def sylEx : Syllabus := ⟨"CS101", "CS-101", [tLoop, tFun], "raw"⟩

/-! ### Claim theorems -/

/-- C3: `get_score_percentage` returns `0` when the question is worth `0` points
(whatever `points_earned` is), and otherwise returns
`points_earned / points * 100`, unclamped. -/
theorem get_score_percentage_spec (r : StudentResponse) (q : Question) :
    (q.points = 0 → r.get_score_percentage q = 0) ∧
    (q.points ≠ 0 → r.get_score_percentage q = r.points_earned / q.points * 100) := by
  constructor <;> intro h <;> simp [StudentResponse.get_score_percentage, h]

/-- Witness for C3: a zero-point question yields `0`, and an over-earned
response yields `150` — above `100`, hence unclamped. -/
theorem get_score_percentage_spec_witness :
    rOver.get_score_percentage qZero = 0 ∧ rOver.get_score_percentage qTen = 150 := by
  refine ⟨(get_score_percentage_spec rOver qZero).1 (by decide), ?_⟩
  rw [(get_score_percentage_spec rOver qTen).2 (by decide)]
  norm_num [rOver, qTen]

/-- C2: `get_total_score` sums `points_earned` over all responses and ignores
the question list; `get_total_possible` sums `points` over the question list;
`get_percentage` is their ratio times `100`, or `0` when the total possible
is `0`. -/
theorem totals_and_percentage_spec (s : Student) (qs : List Question) :
    (∀ qs2 : List Question, s.get_total_score qs = s.get_total_score qs2) ∧
    s.get_total_score qs = (s.responses.map fun r => r.points_earned).sum ∧
    s.get_total_possible qs = (qs.map fun q => q.points).sum ∧
    (s.get_total_possible qs ≠ 0 →
      s.get_percentage qs = s.get_total_score qs / s.get_total_possible qs * 100) ∧
    (s.get_total_possible qs = 0 → s.get_percentage qs = 0) := by
  refine ⟨fun _ => rfl, rfl, rfl, fun h => ?_, fun h => ?_⟩ <;>
    simp [Student.get_percentage, h]

/-- Witness for C2: the example student's percentage is the stated ratio on a
quiz with `20` possible points, and is `0` on an empty question list. -/
theorem totals_and_percentage_spec_witness :
    stS1.get_percentage [qRec, qArr] =
      stS1.get_total_score [qRec, qArr] / stS1.get_total_possible [qRec, qArr] * 100 ∧
    stS1.get_percentage [] = 0 := by
  constructor
  · refine (totals_and_percentage_spec stS1 [qRec, qArr]).2.2.2.1 ?_
    norm_num [Student.get_total_possible, qRec, qArr]
  · exact (totals_and_percentage_spec stS1 []).2.2.2.2 rfl

/-- C4: `get_class_average` is `0` on a quiz with no students, and otherwise
the arithmetic mean of `get_percentage` over all students. -/
theorem get_class_average_spec (quiz : Quiz) :
    (quiz.students = [] → quiz.get_class_average = 0) ∧
    (quiz.students ≠ [] →
      quiz.get_class_average =
        (quiz.students.map fun s => s.get_percentage quiz.questions).sum /
          (quiz.students.length : ℚ)) := by
  constructor <;> intro h <;> simp [Quiz.get_class_average, h]

/-- Witness for C4: the empty quiz averages `0`, and a quiz with two students
scoring `100%` and `50%` averages `75`. -/
theorem get_class_average_spec_witness :
    quizEmpty.get_class_average = 0 ∧ quizAB.get_class_average = 75 := by
  refine ⟨(get_class_average_spec quizEmpty).1 rfl, ?_⟩
  rw [(get_class_average_spec quizAB).2 (by decide)]
  norm_num [quizAB, sA, sB, qRec, Student.get_percentage, Student.get_total_possible,
    Student.get_total_score]

/-- C5: `get_section_average` is the class average of the quiz restricted to
the students of that section; `get_students_by_section` selects exactly the
students whose `section` equals the query (exact string equality); and the
section average of an unpopulated section is `0`. -/
theorem get_section_average_spec (quiz : Quiz) (sec : String) :
    quiz.get_section_average sec =
      Quiz.get_class_average { quiz with students := quiz.get_students_by_section sec } ∧
    (∀ s, s ∈ quiz.get_students_by_section sec ↔ s ∈ quiz.students ∧ s.«section» = sec) ∧
    (quiz.get_students_by_section sec = [] → quiz.get_section_average sec = 0) := by
  refine ⟨rfl, fun s => ?_, fun h => ?_⟩
  · simp [Quiz.get_students_by_section, List.mem_filter]
  · simp only [Quiz.get_section_average, h]
    simp

/-- Witness for C5: in the two-student quiz, section "A" averages `100`,
section "B" averages `50`, and the unpopulated (case-sensitively distinct)
section "a" averages `0`. -/
theorem get_section_average_spec_witness :
    quizAB.get_section_average "A" = 100 ∧ quizAB.get_section_average "B" = 50 ∧
    quizAB.get_section_average "a" = 0 := by
  have hA : quizAB.get_students_by_section "A" = [sA] := by decide
  have hB : quizAB.get_students_by_section "B" = [sB] := by decide
  refine ⟨?_, ?_, (get_section_average_spec quizAB "a").2.2 (by decide)⟩
  · rw [(get_section_average_spec quizAB "A").1]
    simp only [hA, Quiz.get_class_average]
    norm_num [quizAB, sA, qRec, Student.get_percentage, Student.get_total_possible,
      Student.get_total_score]
  · rw [(get_section_average_spec quizAB "B").1]
    simp only [hB, Quiz.get_class_average]
    norm_num [quizAB, sB, qRec, Student.get_percentage, Student.get_total_possible,
      Student.get_total_score]

/-- Characterization of the per-response step of `get_weak_topics`. -/
theorem weakTopicOfResponse_eq_some (questions : List Question) (threshold : ℚ)
    (r : StudentResponse) (topic : String) :
    weakTopicOfResponse questions threshold r = some topic ↔
      ∃ q, (questions.find? fun q2 => q2.question_id == r.question_id) = some q ∧
        q.mapped_topic = some topic ∧ topic ≠ "" ∧
        r.get_score_percentage q < threshold := by
  cases hf : questions.find? fun q2 => q2.question_id == r.question_id with
  | none => simp [weakTopicOfResponse, hf]
  | some q =>
    cases hm : q.mapped_topic with
    | none => simp [weakTopicOfResponse, hf, hm]
    | some tp =>
      simp only [weakTopicOfResponse, hf, hm, Option.some.injEq, exists_eq_left', ne_eq]
      by_cases he : tp = ""
      · rw [if_pos he]
        constructor
        · intro h; cases h
        · rintro ⟨rfl, hne, _⟩; exact absurd he hne
      · rw [if_neg he]
        by_cases hlt : r.get_score_percentage q < threshold
        · rw [if_pos hlt]
          constructor
          · intro h
            injection h with h
            exact ⟨h, h ▸ he, hlt⟩
          · rintro ⟨rfl, _, _⟩; rfl
        · rw [if_neg hlt]
          constructor
          · intro h; cases h
          · rintro ⟨rfl, _, h⟩; exact absurd h hlt

/-- C1 (amended): a topic name is in `get_weak_topics` exactly when some
response of the student resolves (by first match on `question_id`) to a
question whose `mapped_topic` is present **and non-empty**, equal to that
name, and on which the response scores strictly below the threshold; and the
returned list has no duplicates.  (The non-emptiness condition is forced by
Python's truthiness test `if question and question.mapped_topic`.) -/
theorem get_weak_topics_spec (s : Student) (questions : List Question) (threshold : ℚ) :
    (∀ topic : String,
      topic ∈ s.get_weak_topics questions threshold ↔
        ∃ r ∈ s.responses, ∃ q,
          (questions.find? fun q2 => q2.question_id == r.question_id) = some q ∧
          q.mapped_topic = some topic ∧ topic ≠ "" ∧
          r.get_score_percentage q < threshold) ∧
    (s.get_weak_topics questions threshold).Nodup := by
  refine ⟨fun topic => ?_, List.nodup_dedup _⟩
  simp only [Student.get_weak_topics, List.mem_dedup, List.mem_filterMap,
    weakTopicOfResponse_eq_some]

/-- Counterexample to C1 as stated: a question whose `mapped_topic` is the
empty string (present, hence "non-absent") is resolved by the failing
response, scores below the threshold, yet the code returns no weak topic for
it — Python's truthiness test also rejects the empty string. -/
theorem get_weak_topics_claim_counterexample :
    rET ∈ stET.responses ∧
    ([qET].find? fun q2 => q2.question_id == rET.question_id) = some qET ∧
    qET.mapped_topic = some "" ∧
    rET.get_score_percentage qET < 70 ∧
    stET.get_weak_topics [qET] 70 = [] := by
  refine ⟨by decide, by decide, by decide, ?_, by decide⟩
  norm_num [StudentResponse.get_score_percentage, rET, qET]

/-- C6: the failure semantics of the core — zero-denominator and
empty-collection aggregates return the defined value `0`, and failed
lookups return the absent value `none` (the embedding is by total
functions, so no operation can raise). -/
theorem never_raises_spec :
    (∀ (r : StudentResponse) (q : Question), q.points = 0 → r.get_score_percentage q = 0) ∧
    (∀ (s : Student) (qs : List Question), s.get_total_possible qs = 0 →
      s.get_percentage qs = 0) ∧
    (∀ quiz : Quiz, quiz.students = [] → quiz.get_class_average = 0) ∧
    (∀ (quiz : Quiz) (sec : String), quiz.get_students_by_section sec = [] →
      quiz.get_section_average sec = 0) ∧
    (∀ (quiz : Quiz) (i : Int), (∀ q ∈ quiz.questions, q.question_id ≠ i) →
      quiz.get_question_by_id i = none) ∧
    (∀ (quiz : Quiz) (sid : String), (∀ s ∈ quiz.students, s.student_id ≠ sid) →
      quiz.get_student_by_id sid = none) ∧
    (∀ (syl : Syllabus) (nm : String), (∀ t ∈ syl.topics, lowerStr t.name ≠ lowerStr nm) →
      syl.get_topic_by_name nm = none) := by
  refine ⟨fun r q h => by simp [StudentResponse.get_score_percentage, h],
    fun s qs h => by simp [Student.get_percentage, h],
    fun quiz h => by simp [Quiz.get_class_average, h],
    fun quiz sec h => by simp only [Quiz.get_section_average, h]; simp,
    fun quiz i h => ?_, fun quiz sid h => ?_, fun syl nm h => ?_⟩
  · rw [Quiz.get_question_by_id, List.find?_eq_none]
    intro q hq
    simpa using h q hq
  · rw [Quiz.get_student_by_id, List.find?_eq_none]
    intro s hs
    simpa using h s hs
  · rw [Syllabus.get_topic_by_name, List.find?_eq_none]
    intro t ht
    simpa using h t ht

/-- Witness for C6: the zero-point question, the empty quiz, and a syllabus
lookup for an unknown name all yield their defined zero/absent values. -/
theorem never_raises_spec_witness :
    rOver.get_score_percentage qZero = 0 ∧
    stS1.get_percentage [] = 0 ∧
    quizEmpty.get_class_average = 0 ∧
    quizEmpty.get_section_average "A" = 0 ∧
    quizAB.get_question_by_id 99 = none ∧
    quizAB.get_student_by_id "Z9" = none ∧
    sylEx.get_topic_by_name "geometry" = none :=
  ⟨never_raises_spec.1 rOver qZero (by decide),
   never_raises_spec.2.1 stS1 [] rfl,
   never_raises_spec.2.2.1 quizEmpty rfl,
   never_raises_spec.2.2.2.1 quizEmpty "A" (by decide),
   never_raises_spec.2.2.2.2.1 quizAB 99 (by decide),
   never_raises_spec.2.2.2.2.2.1 quizAB "Z9" (by decide),
   never_raises_spec.2.2.2.2.2.2 sylEx "geometry" (by decide)⟩

/-- C7: `contains_keyword` holds exactly when the lowercased keyword occurs in
the lowercased name, or in the lowercased description when one is present, or
in the lowercasing of some subtopic; `search_topics` returns exactly the
matching topics, in insertion order (a sublist) and with multiplicities
preserved (no deduplication); in particular a topic whose subtopics contain
"For Loops" is matched by the keyword "loop". -/
theorem contains_keyword_search_spec (t : Topic) (k : String) (syl : Syllabus) :
    (t.contains_keyword k = true ↔
      (SubstrOf (lowerStr k) (lowerStr t.name) ∨
       (∃ d, t.description = some d ∧ SubstrOf (lowerStr k) (lowerStr d)) ∨
       (∃ sub ∈ t.subtopics, SubstrOf (lowerStr k) (lowerStr sub)))) ∧
    List.Sublist (syl.search_topics k) syl.topics ∧
    (∀ u : Topic, u ∈ syl.search_topics k ↔ u ∈ syl.topics ∧ u.contains_keyword k = true) ∧
    (∀ u : Topic, u.contains_keyword k = true →
      (syl.search_topics k).count u = syl.topics.count u) ∧
    tLoop.contains_keyword "loop" = true := by
  refine ⟨?_, List.filter_sublist _, fun u => List.mem_filter,
    fun u hu => List.count_filter hu, by decide⟩
  simp only [Topic.contains_keyword]
  by_cases h1 : strIn (lowerStr k) (lowerStr t.name) = true
  · rw [if_pos h1]
    simp only [true_iff]
    exact Or.inl ((strIn_iff _ _).mp h1)
  · rw [if_neg h1]
    by_cases h2 : (match t.description with
                   | some d => strIn (lowerStr k) (lowerStr d)
                   | none => false) = true
    · rw [if_pos h2]
      simp only [true_iff]
      cases hd : t.description with
      | none => rw [hd] at h2; cases h2
      | some d =>
        rw [hd] at h2
        exact Or.inr (Or.inl ⟨d, rfl, (strIn_iff _ _).mp h2⟩)
    · rw [if_neg h2]
      constructor
      · intro h
        rcases List.any_eq_true.mp h with ⟨sub, hs, hc⟩
        exact Or.inr (Or.inr ⟨sub, hs, (strIn_iff _ _).mp hc⟩)
      · rintro (hc | ⟨d, hd, hc⟩ | ⟨sub, hs, hc⟩)
        · exact absurd ((strIn_iff _ _).mpr hc) h1
        · rw [hd] at h2
          exact absurd ((strIn_iff _ _).mpr hc) h2
        · exact List.any_eq_true.mpr ⟨sub, hs, (strIn_iff _ _).mpr hc⟩

/-- C8: `get_topic_by_name` returns the first topic in insertion order whose
name matches the query case-insensitively, and `none` exactly when no topic's
name matches. -/
theorem get_topic_by_name_spec (syl : Syllabus) (nm : String) :
    (∀ t, syl.get_topic_by_name nm = some t ↔
      ∃ pre post, syl.topics = pre ++ t :: post ∧ lowerStr t.name = lowerStr nm ∧
        ∀ u ∈ pre, lowerStr u.name ≠ lowerStr nm) ∧
    (syl.get_topic_by_name nm = none ↔ ∀ t ∈ syl.topics, lowerStr t.name ≠ lowerStr nm) := by
  constructor
  · intro t
    rw [Syllabus.get_topic_by_name, find?_eq_some_first]
    constructor
    · rintro ⟨pre, post, hl, hp, hpre⟩
      exact ⟨pre, post, hl, by simpa using hp, fun u hu => by simpa using hpre u hu⟩
    · rintro ⟨pre, post, hl, hp, hpre⟩
      exact ⟨pre, post, hl, by simpa using hp, fun u hu => by simpa using hpre u hu⟩
  · rw [Syllabus.get_topic_by_name, List.find?_eq_none]
    simp

/-- Witness for C8: the topic named "Functions" is found by the all-lowercase
query "functions" (skipping the earlier non-matching topic). -/
theorem get_topic_by_name_spec_witness :
    sylEx.get_topic_by_name "functions" = some tFun :=
  ((get_topic_by_name_spec sylEx "functions").1 tFun).mpr
    ⟨[tLoop], [], rfl, by decide, by decide⟩

/-- Every topic matches the empty keyword: the empty string occurs in every
(lowercased) name. -/
theorem contains_keyword_empty (t : Topic) : t.contains_keyword "" = true := by
  have h : strIn "" (lowerStr t.name) = true := by
    simp only [strIn]
    cases h2 : (lowerStr t.name).toList with
    | nil => rfl
    | cons c cs => simp [occursInChars, startsWithChars]
  simp [Topic.contains_keyword, show lowerStr "" = "" from rfl, h]

/-- C10: the empty keyword matches every topic, and searching for it returns
the whole topic list in insertion order. -/
theorem empty_keyword_spec (t : Topic) (syl : Syllabus) :
    t.contains_keyword "" = true ∧ syl.search_topics "" = syl.topics := by
  refine ⟨contains_keyword_empty t, ?_⟩
  rw [Syllabus.search_topics]
  exact List.filter_eq_self.mpr fun u _ => contains_keyword_empty u

/-- A state-passing call is pure when it returns the receiver state unchanged
and calling it again on the returned state yields the same value. -/
def PureCall {σ α : Type} (call : σ → α × σ) : Prop :=
  ∀ st : σ, (call st).2 = st ∧ (call ((call st).2)).1 = (call st).1

/-! State-passing forms of the read operations.  Each source method body only
reads `self` (there is no assignment to `self` anywhere in these methods), so
its translation into explicit state passing returns the computed value
together with the unchanged receiver. -/

/-- State-passing call of `get_question_by_id`. -/
def Quiz.call_get_question_by_id (quiz : Quiz) (i : Int) : Option Question × Quiz :=
  (quiz.get_question_by_id i, quiz)

/-- State-passing call of `get_student_by_id`. -/
def Quiz.call_get_student_by_id (quiz : Quiz) (sid : String) : Option Student × Quiz :=
  (quiz.get_student_by_id sid, quiz)

/-- State-passing call of `get_class_average`. -/
def Quiz.call_get_class_average (quiz : Quiz) : ℚ × Quiz :=
  (quiz.get_class_average, quiz)

/-- State-passing call of `get_students_by_section`. -/
def Quiz.call_get_students_by_section (quiz : Quiz) (sec : String) : List Student × Quiz :=
  (quiz.get_students_by_section sec, quiz)

/-- State-passing call of `get_section_average`. -/
def Quiz.call_get_section_average (quiz : Quiz) (sec : String) : ℚ × Quiz :=
  (quiz.get_section_average sec, quiz)

/-- State-passing call of `get_all_sections`. -/
def Quiz.call_get_all_sections (quiz : Quiz) : List String × Quiz :=
  (quiz.get_all_sections, quiz)

/-- State-passing call of `get_topic_by_name`. -/
def Syllabus.call_get_topic_by_name (syl : Syllabus) (nm : String) : Option Topic × Syllabus :=
  (syl.get_topic_by_name nm, syl)

/-- State-passing call of `search_topics`. -/
def Syllabus.call_search_topics (syl : Syllabus) (kw : String) : List Topic × Syllabus :=
  (syl.search_topics kw, syl)

/-- State-passing call of `get_all_topic_names`. -/
def Syllabus.call_get_all_topic_names (syl : Syllabus) : List String × Syllabus :=
  (syl.get_all_topic_names, syl)

/-- State-passing call of `Student.get_total_score`. -/
def Student.call_get_total_score (st : Student) (qs : List Question) : ℚ × Student :=
  (st.get_total_score qs, st)

/-- State-passing call of `Student.get_total_possible`. -/
def Student.call_get_total_possible (st : Student) (qs : List Question) : ℚ × Student :=
  (st.get_total_possible qs, st)

/-- State-passing call of `Student.get_percentage`. -/
def Student.call_get_percentage (st : Student) (qs : List Question) : ℚ × Student :=
  (st.get_percentage qs, st)

/-- State-passing call of `Student.get_weak_topics`. -/
def Student.call_get_weak_topics (st : Student) (qs : List Question) (th : ℚ) :
    List String × Student :=
  (st.get_weak_topics qs th, st)

/-- State-passing call of `StudentResponse.get_score_percentage`; the state is
the pair of records the method reads. -/
def StudentResponse.call_get_score_percentage (rq : StudentResponse × Question) :
    ℚ × (StudentResponse × Question) :=
  (rq.1.get_score_percentage rq.2, rq)

/-- C9: every read operation of the aggregates and record helpers, in
state-passing form, leaves its receiver state unchanged, and a repeated call
on the returned state yields the same value. -/
theorem reads_are_pure_spec (i : Int) (sid nm kw sec : String) (qs : List Question)
    (th : ℚ) :
    PureCall (fun quiz : Quiz => quiz.call_get_question_by_id i) ∧
    PureCall (fun quiz : Quiz => quiz.call_get_student_by_id sid) ∧
    PureCall Quiz.call_get_class_average ∧
    PureCall (fun quiz : Quiz => quiz.call_get_students_by_section sec) ∧
    PureCall (fun quiz : Quiz => quiz.call_get_section_average sec) ∧
    PureCall Quiz.call_get_all_sections ∧
    PureCall (fun syl : Syllabus => syl.call_get_topic_by_name nm) ∧
    PureCall (fun syl : Syllabus => syl.call_search_topics kw) ∧
    PureCall Syllabus.call_get_all_topic_names ∧
    PureCall (fun st : Student => st.call_get_total_score qs) ∧
    PureCall (fun st : Student => st.call_get_total_possible qs) ∧
    PureCall (fun st : Student => st.call_get_percentage qs) ∧
    PureCall (fun st : Student => st.call_get_weak_topics qs th) ∧
    PureCall StudentResponse.call_get_score_percentage :=
  ⟨fun _ => ⟨rfl, rfl⟩, fun _ => ⟨rfl, rfl⟩, fun _ => ⟨rfl, rfl⟩, fun _ => ⟨rfl, rfl⟩,
   fun _ => ⟨rfl, rfl⟩, fun _ => ⟨rfl, rfl⟩, fun _ => ⟨rfl, rfl⟩, fun _ => ⟨rfl, rfl⟩,
   fun _ => ⟨rfl, rfl⟩, fun _ => ⟨rfl, rfl⟩, fun _ => ⟨rfl, rfl⟩, fun _ => ⟨rfl, rfl⟩,
   fun _ => ⟨rfl, rfl⟩, fun _ => ⟨rfl, rfl⟩⟩

/-- Witness for C1: in the worked example the student scores 40% on the
"Recursion" question, so "Recursion" is a weak topic, and the result list is
duplicate-free. -/
theorem get_weak_topics_spec_witness :
    "Recursion" ∈ stS1.get_weak_topics [qRec, qArr] 70 ∧
    (stS1.get_weak_topics [qRec, qArr] 70).Nodup := by
  constructor
  · refine ((get_weak_topics_spec stS1 [qRec, qArr] 70).1 "Recursion").mpr
      ⟨rLow, by decide, qRec, by decide, by decide, by decide, ?_⟩
    norm_num [StudentResponse.get_score_percentage, rLow, qRec]
  · exact (get_weak_topics_spec stS1 [qRec, qArr] 70).2

/-- Witness for C7: searching the example syllabus for "loop" keeps the
multiplicity of the matching topic `tLoop`. -/
theorem contains_keyword_search_spec_witness :
    (sylEx.search_topics "loop").count tLoop = sylEx.topics.count tLoop :=
  (contains_keyword_search_spec tLoop "loop" sylEx).2.2.2.1 tLoop (by decide)

/-- Witness for C9: calling `get_class_average` on the example quiz leaves it
unchanged and a second call returns the same value. -/
theorem reads_are_pure_spec_witness :
    (quizAB.call_get_class_average).2 = quizAB ∧
    ((quizAB.call_get_class_average).2.call_get_class_average).1 =
      (quizAB.call_get_class_average).1 :=
  (reads_are_pure_spec 0 "" "" "" "" [] 0).2.2.1 quizAB

/-- Witness for C10: the example topic matches the empty keyword and the empty
search returns the example syllabus's full topic list. -/
theorem empty_keyword_spec_witness :
    tLoop.contains_keyword "" = true ∧ sylEx.search_topics "" = sylEx.topics :=
  empty_keyword_spec tLoop sylEx
